import Mathlib

/-!
Verification development for the moleculer-go transit engine
(src/transit/transit.go) and its JSON payload abstraction
(serializer package, JSONSerializer / JSONPayload over tidwall/gjson).

The Go code is shallowly embedded: JSON documents are modelled as a tree,
the gjson result type as an optional tree (a zero-value gjson.Result is the
`missing` case), the pending-request table as an association list, Go chan
pointers as `Option Nat` (a nil pointer is `none`), and handler executions as
pure functions returning the new state together with the observable effects
(published messages, channel sends, or a nil-pointer-dereference panic).
Machine integers are Int / Nat; the one float computation (math.Round in
pongHandler) is modelled over Rat, which is exact for the unix-second
magnitudes the code manipulates.
-/

/- JSON documents, as decoded by gjson. Numbers carry their exact rational
value (gjson keeps both a float64 and the raw literal; over the values the
claims quantify - 64-bit integers and float64s - the pair is equivalent to
the exact rational, see gjsonInt below). Mutual inductives are used instead
of nested lists so that all functions are structurally recursive. -/
mutual
inductive Json where
  | null : Json
  | bool (b : Bool) : Json
  | num (q : ℚ) : Json
  | str (s : String) : Json
  | arr (elems : JsonList) : Json
  | obj (entries : JsonObj) : Json

inductive JsonList where
  | nil : JsonList
  | cons (hd : Json) (tl : JsonList) : JsonList

inductive JsonObj where
  | nil : JsonObj
  | cons (key : String) (val : Json) (tl : JsonObj) : JsonObj
end

def JsonList.length : JsonList → ℕ
  | .nil => 0
  | .cons _ tl => 1 + JsonList.length tl

def JsonList.get? : ℕ → JsonList → Option Json
  | _, .nil => none
  | 0, .cons hd _ => some hd
  | n + 1, .cons _ tl => JsonList.get? n tl

/-- gjson path components: a component containing a wildcard matches keys by
pattern (gjson match.Match over bytes, modelled here over characters). -/
def wildMatch : List Char → List Char → Bool
  | [], [] => true
  | '*' :: ps, [] => wildMatch ps []
  | '*' :: ps, k :: ks => wildMatch ps (k :: ks) || wildMatch ('*' :: ps) ks
  | '?' :: ps, _ :: ks => wildMatch ps ks
  | p :: ps, k :: ks => p == k && wildMatch ps ks
  | _ :: _, [] => false
  | [], _ :: _ => false
termination_by p k => (p.length, k.length)

/-- A gjson path component is a wildcard pattern when it contains '*' or '?'. -/
def isWild (c : String) : Bool :=
  c.data.any fun ch => ch == '*' || ch == '?'

/-- gjson object lookup for one path component: wildcard components match the
first pattern-matching key in document order, plain components the first
equal key. -/
def keyMatches (c k : String) : Bool :=
  if isWild c then wildMatch c.data k.data else c == k

def JsonObj.findKey (c : String) : JsonObj → Option Json
  | .nil => none
  | .cons k v tl => if keyMatches c k then some v else JsonObj.findKey c tl

def JsonObj.keys : JsonObj → List String
  | .nil => []
  | .cons k _ tl => k :: JsonObj.keys tl

/-- Splitting a gjson path into components: '.' and '|' separate components
and a backslash escapes the next character (gjson parsePath). Query, modifier
and multipath syntax ('#(..)', '@..', '[..]') is not modelled; the theorems
below restrict their paths to components free of those characters. -/
def splitComps : List Char → List Char → List String
  | [], acc => [String.mk acc.reverse]
  | c :: rest, acc =>
    if c == '\\' then
      match rest with
      | [] => [String.mk acc.reverse]
      | c2 :: rest2 => splitComps rest2 (c2 :: acc)
    else if c == '.' || c == '|' then
      String.mk acc.reverse :: splitComps rest []
    else
      splitComps rest (c :: acc)

def pathSplit (path : String) : List String := splitComps path.data []

def digitVal (c : Char) : Option ℕ :=
  if c == '0' then some 0 else if c == '1' then some 1
  else if c == '2' then some 2 else if c == '3' then some 3
  else if c == '4' then some 4 else if c == '5' then some 5
  else if c == '6' then some 6 else if c == '7' then some 7
  else if c == '8' then some 8 else if c == '9' then some 9 else none

/-- An all-digits path component indexes into an array (gjson parseArray). -/
def toIndex (c : String) : Option ℕ :=
  c.data.foldl
    (fun acc ch =>
      match acc, digitVal ch with
      | some n, some d => some (10 * n + d)
      | _, _ => none)
    (if c.data.isEmpty then none else some 0)

/-- The path walk of gjson.Get over a decoded document: object components are
looked up by key (or pattern), numeric components index arrays, the component
"#" on an array yields its length, and every other combination yields the
zero gjson.Result, i.e. a missing result. -/
def jsonGetPath : List String → Json → Option Json
  | [], j => some j
  | c :: cs, .obj entries =>
    match JsonObj.findKey c entries with
    | some v => jsonGetPath cs v
    | none => none
  | c :: cs, .arr elems =>
    match toIndex c with
    | some i =>
      match JsonList.get? i elems with
      | some v => jsonGetPath cs v
      | none => none
    | none =>
      if c == "#" && cs.isEmpty then some (Json.num (JsonList.length elems : ℚ))
      else none
  | _ :: _, _ => none

/- Structural presence of a path in a document, independent of the
first-match lookup order used by jsonGetPath: a path is present when some
chain of matching entries leads to a value. Used to state the property that
a path is "not present" in a payload. -/
mutual
def pathInB : List String → Json → Bool
  | [], _ => true
  | c :: cs, .obj entries => pathInObj c cs entries
  | c :: cs, .arr elems => (c == "#" && cs.isEmpty) || pathInArr cs elems
  | _ :: _, _ => false

def pathInObj (c : String) (cs : List String) : JsonObj → Bool
  | .nil => false
  | .cons k v tl => (keyMatches c k && pathInB cs v) || pathInObj c cs tl

def pathInArr (cs : List String) : JsonList → Bool
  | .nil => false
  | .cons hd tl => pathInB cs hd || pathInArr cs tl
end

/-- The gjson result type as seen through JSONPayload: a zero-value
gjson.Result (missing path) is `none`; any decoded JSON value, including a
literal null, is `some`. -/
abbrev JSONPayload := Option Json

def numRaw (q : ℚ) : String :=
  if q.den = 1 then toString q.num else toString q

/- Raw JSON text of a composite result (gjson Result.Raw), used only by the
String accessor on arrays and objects; string escaping is not modelled since
no theorem below inspects this text. -/
mutual
def jsonRaw : Json → String
  | .null => "null"
  | .bool true => "true"
  | .bool false => "false"
  | .num q => numRaw q
  | .str s => "\"" ++ s ++ "\""
  | .arr l => "[" ++ jsonRawList l ++ "]"
  | .obj o => String.mk ['\x7b'] ++ jsonRawObj o ++ String.mk ['\x7d']

def jsonRawList : JsonList → String
  | .nil => ""
  | .cons hd .nil => jsonRaw hd
  | .cons hd tl => jsonRaw hd ++ "," ++ jsonRawList tl

def jsonRawObj : JsonObj → String
  | .nil => ""
  | .cons k v .nil => "\"" ++ k ++ "\":" ++ jsonRaw v
  | .cons k v tl => "\"" ++ k ++ "\":" ++ jsonRaw v ++ "," ++ jsonRawObj tl
end

/-- Go interface values, the image of gjson Result.Value(). -/
inductive GoVal where
  | nil : GoVal
  | bool (b : Bool) : GoVal
  | num (q : ℚ) : GoVal
  | str (s : String) : GoVal
  | arr (l : List GoVal) : GoVal
  | obj (l : List (String × GoVal)) : GoVal

mutual
def jsonToGoVal : Json → GoVal
  | .null => .nil
  | .bool b => .bool b
  | .num q => .num q
  | .str s => .str s
  | .arr l => .arr (jsonToGoValList l)
  | .obj o => .obj (jsonToGoValObj o)

def jsonToGoValList : JsonList → List GoVal
  | .nil => []
  | .cons hd tl => jsonToGoVal hd :: jsonToGoValList tl

def jsonToGoValObj : JsonObj → List (String × GoVal)
  | .nil => []
  | .cons k v tl => (k, jsonToGoVal v) :: jsonToGoValObj tl
end

def natDigitsOpt (cs : List Char) : Option ℕ :=
  if cs.isEmpty then none
  else cs.foldl
    (fun acc ch =>
      match acc, digitVal ch with
      | some n, some d => some (10 * n + d)
      | _, _ => none)
    (some 0)

/-- strconv.ParseInt as used by gjson on string results: optional sign and
decimal digits; any other shape yields 0 (the error is discarded). -/
def parseIntS (s : String) : ℤ :=
  match s.data with
  | '-' :: rest =>
    match natDigitsOpt rest with
    | some n => -(n : ℤ)
    | none => 0
  | cs =>
    match natDigitsOpt cs with
    | some n => (n : ℤ)
    | none => 0

def parseDec (cs : List Char) : Option ℚ :=
  let ip := cs.takeWhile fun c => (digitVal c).isSome
  let rest := cs.drop ip.length
  match natDigitsOpt ip with
  | none => none
  | some n =>
    match rest with
    | [] => some (n : ℚ)
    | '.' :: frac =>
      match natDigitsOpt frac with
      | some f => some ((n : ℚ) + (f : ℚ) / ((10 : ℚ) ^ frac.length))
      | none => none
    | _ => none

/-- strconv.ParseFloat as used by gjson on string results, modelled for plain
decimal literals (exponents unsupported); any other shape yields 0. -/
def parseFloatS (s : String) : ℚ :=
  match s.data with
  | '-' :: rest =>
    match parseDec rest with
    | some q => -q
    | none => 0
  | cs =>
    match parseDec cs with
    | some q => q
    | none => 0

/-- strconv.ParseBool over the lower-cased string, error discarded
(gjson Result.Bool on the String type). -/
def parseBoolLower (s : String) : Bool :=
  let l := String.mk (s.data.map Char.toLower)
  l == "1" || l == "t" || l == "true"

/-- Truncation toward zero, the effect of Go's int64(float64) conversion on
in-range values. -/
def truncQ (q : ℚ) : ℤ :=
  if q < 0 then ⌈q⌉ else ⌊q⌋

/-- gjson Result.Int on the Number type: safeInt truncates when the float64
magnitude is at most 2^53 - 1, otherwise parseInt recovers the exact value
from the raw literal when it is an in-range integer; the final fallback
(out-of-range float-to-int conversion, unspecified in Go) is modelled as the
int64 minimum and is unreachable in the theorems below. -/
def gjsonInt (q : ℚ) : ℤ :=
  if -(2 ^ 53 - 1) ≤ q ∧ q ≤ 2 ^ 53 - 1 then truncQ q
  else if q.den = 1 ∧ -(2 ^ 63) ≤ q.num ∧ q.num < 2 ^ 63 then q.num
  else -(2 ^ 63)

/-- gjson Result.Uint on the Number type, analogous to gjsonInt. -/
def gjsonUint (q : ℚ) : ℕ :=
  if (-(2 ^ 53 - 1) ≤ q ∧ q ≤ 2 ^ 53 - 1) ∧ 0 ≤ truncQ q then (truncQ q).toNat
  else if q.den = 1 ∧ 0 ≤ q.num ∧ q.num < 2 ^ 64 then q.num.toNat
  else 0

/-- Go time.Time values as they cross the JSON boundary: a UTC civil
date-time at second granularity (the only granularity the transit engine
produces; fractional seconds and non-UTC offsets are outside the modelled
value universe). The Go zero time is year 1, January 1, 00:00:00 UTC. -/
structure DateTime where
  year : ℕ
  month : ℕ
  day : ℕ
  hour : ℕ
  minute : ℕ
  second : ℕ
deriving DecidableEq, Repr

def isLeap (y : ℕ) : Bool :=
  y % 4 == 0 && (y % 100 != 0 || y % 400 == 0)

def daysInMonth (y m : ℕ) : ℕ :=
  if m == 2 then (if isLeap y then 29 else 28)
  else if m == 4 || m == 6 || m == 9 || m == 11 then 30
  else 31

/-- The field ranges time.Parse accepts and json.Marshal can produce
(a year past 9999 makes Marshal fail, so the wire format never carries one). -/
def dtValidP (y mo da h mi se : ℕ) : Prop :=
  y ≤ 9999 ∧ 1 ≤ mo ∧ mo ≤ 12 ∧ 1 ≤ da ∧ da ≤ daysInMonth y mo ∧
    h ≤ 23 ∧ mi ≤ 59 ∧ se ≤ 59

instance (y mo da h mi se : ℕ) : Decidable (dtValidP y mo da h mi se) := by
  unfold dtValidP; infer_instance

def DateTime.Valid (t : DateTime) : Prop :=
  dtValidP t.year t.month t.day t.hour t.minute t.second

instance (t : DateTime) : Decidable t.Valid := by
  unfold DateTime.Valid; infer_instance

def digitChar : ℕ → Char
  | 0 => '0'
  | 1 => '1'
  | 2 => '2'
  | 3 => '3'
  | 4 => '4'
  | 5 => '5'
  | 6 => '6'
  | 7 => '7'
  | 8 => '8'
  | _ => '9'

def pad2 (n : ℕ) : List Char := [digitChar (n / 10 % 10), digitChar (n % 10)]

def pad4 (n : ℕ) : List Char :=
  [digitChar (n / 1000 % 10), digitChar (n / 100 % 10),
   digitChar (n / 10 % 10), digitChar (n % 10)]

/-- json.Marshal of a time.Time: the RFC3339Nano rendering, which for a
whole-second UTC value is "YYYY-MM-DDTHH:MM:SSZ". -/
def rfc3339Format (t : DateTime) : String :=
  String.mk
    (pad4 t.year ++ ('-' :: (pad2 t.month ++ ('-' :: (pad2 t.day ++
      ('T' :: (pad2 t.hour ++ (':' :: (pad2 t.minute ++
        (':' :: (pad2 t.second ++ ['Z'])))))))))))

def pDigit : List Char → Option (ℕ × List Char)
  | [] => none
  | c :: rest =>
    match digitVal c with
    | some d => some (d, rest)
    | none => none

def pLit (x : Char) : List Char → Option (List Char)
  | [] => none
  | c :: rest => if c == x then some rest else none

def p2 (cs : List Char) : Option (ℕ × List Char) :=
  match pDigit cs with
  | none => none
  | some (a, r1) =>
    match pDigit r1 with
    | none => none
    | some (b, r2) => some (10 * a + b, r2)

def p4 (cs : List Char) : Option (ℕ × List Char) :=
  match p2 cs with
  | none => none
  | some (a, r1) =>
    match p2 r1 with
    | none => none
    | some (b, r2) => some (100 * a + b, r2)

/-- time.Parse with the RFC3339 layout, as called by gjson Result.Time,
modelled on the "Z"-offset whole-second shape (the only shape the modelled
marshaller emits; any other input fails and Time returns the zero time). -/
def rfc3339Parse (s : String) : Option DateTime :=
  match p4 s.data with
  | none => none
  | some (y, r1) =>
  match pLit '-' r1 with
  | none => none
  | some r2 =>
  match p2 r2 with
  | none => none
  | some (mo, r3) =>
  match pLit '-' r3 with
  | none => none
  | some r4 =>
  match p2 r4 with
  | none => none
  | some (da, r5) =>
  match pLit 'T' r5 with
  | none => none
  | some r6 =>
  match p2 r6 with
  | none => none
  | some (h, r7) =>
  match pLit ':' r7 with
  | none => none
  | some r8 =>
  match p2 r8 with
  | none => none
  | some (mi, r9) =>
  match pLit ':' r9 with
  | none => none
  | some r10 =>
  match p2 r10 with
  | none => none
  | some (se, r11) =>
  match pLit 'Z' r11 with
  | none => none
  | some r12 =>
  match r12 with
  | [] => if dtValidP y mo da h mi se then some ⟨y, mo, da, h, mi, se⟩ else none
  | _ :: _ => none

/-- JSONPayload.Get (src serializer): gjson path lookup producing a child
view; on a zero-value result (missing) every lookup is missing again. -/
def JSONPayload.Get (p : JSONPayload) (path : String) : JSONPayload :=
  match p with
  | none => none
  | some j => jsonGetPath (pathSplit path) j

/-- JSONPayload.Exists: gjson Result.Exists, false exactly for the zero
result (a decoded literal null has nonempty Raw, so it exists). -/
def JSONPayload.Exists : JSONPayload → Bool
  | none => false
  | some _ => true

/-- JSONPayload.IsMap: gjson Result.IsObject. -/
def JSONPayload.IsMap : JSONPayload → Bool
  | some (.obj _) => true
  | _ => false

/-- JSONPayload.IsError (src serializer): a map result carrying an "error"
field. -/
def JSONPayload.IsError (p : JSONPayload) : Bool :=
  JSONPayload.IsMap p && JSONPayload.Exists (JSONPayload.Get p "error")

/-- JSONPayload.Value: gjson Result.Value, nil for the Null type and the
zero result. -/
def JSONPayload.Value : JSONPayload → GoVal
  | none => .nil
  | some j => jsonToGoVal j

/-- JSONPayload.String: gjson Result.String — "" for Null and the zero
result, "true"/"false" for booleans, the raw literal for numbers and
composites, the string itself for strings. -/
def JSONPayload.String : JSONPayload → String
  | none => ""
  | some .null => ""
  | some (.bool false) => "false"
  | some (.bool true) => "true"
  | some (.num q) => numRaw q
  | some (.str s) => s
  | some (.arr l) => jsonRaw (.arr l)
  | some (.obj o) => jsonRaw (.obj o)

/-- JSONPayload.Int64, i.e. gjson Result.Int: 1 for true, parsed digits for
strings, gjsonInt for numbers, 0 otherwise. -/
def JSONPayload.Int64 : JSONPayload → ℤ
  | none => 0
  | some .null => 0
  | some (.bool true) => 1
  | some (.bool false) => 0
  | some (.num q) => gjsonInt q
  | some (.str s) => parseIntS s
  | some (.arr _) => 0
  | some (.obj _) => 0

/-- JSONPayload.Int (src serializer): int(result.Int()); int is 64-bit on
the targeted platforms, so it coincides with Int64. -/
def JSONPayload.Int (p : JSONPayload) : ℤ := JSONPayload.Int64 p

/-- JSONPayload.Uint: gjson Result.Uint. -/
def JSONPayload.Uint : JSONPayload → ℕ
  | none => 0
  | some .null => 0
  | some (.bool true) => 1
  | some (.bool false) => 0
  | some (.num q) => gjsonUint q
  | some (.str s) => (parseIntS s).toNat
  | some (.arr _) => 0
  | some (.obj _) => 0

/-- JSONPayload.Float: gjson Result.Float. -/
def JSONPayload.Float : JSONPayload → ℚ
  | none => 0
  | some .null => 0
  | some (.bool true) => 1
  | some (.bool false) => 0
  | some (.num q) => q
  | some (.str s) => parseFloatS s
  | some (.arr _) => 0
  | some (.obj _) => 0

/-- JSONPayload.Bool: gjson Result.Bool. -/
def JSONPayload.Bool : JSONPayload → Bool
  | some (.bool b) => b
  | some (.num q) => !(q == 0)
  | some (.str s) => parseBoolLower s
  | _ => false

/-- JSONPayload.Time: gjson Result.Time, i.e. time.Parse(RFC3339, String());
the parse error is discarded and yields the Go zero time. -/
def JSONPayload.Time (p : JSONPayload) : DateTime :=
  match rfc3339Parse (JSONPayload.String p) with
  | some t => t
  | none => ⟨1, 1, 1, 0, 0, 0⟩

/-- The Go scalar values claim C9 quantifies over (the supported types of
the round-trip property). -/
inductive GoScalar where
  | s (v : String) : GoScalar
  | i (v : ℤ) : GoScalar
  | i64 (v : ℤ) : GoScalar
  | u (v : ℕ) : GoScalar
  | f (v : ℚ) : GoScalar
  | b (v : Bool) : GoScalar
  | t (v : DateTime) : GoScalar
deriving DecidableEq

/-- json.Marshal of one scalar map value (as performed inside sjson.Set):
integers keep their exact decimal rendering, float64 values their exact
value, booleans their literal, and time.Time its RFC3339Nano string. -/
def encodeScalar : GoScalar → Json
  | .s v => .str v
  | .i v => .num (v : ℚ)
  | .i64 v => .num (v : ℚ)
  | .u v => .num (v : ℚ)
  | .f v => .num v
  | .b v => .bool v
  | .t v => .str (rfc3339Format v)

def encodeEntries : List (String × GoScalar) → JsonObj
  | [] => .nil
  | (k, v) :: rest => .cons k (encodeScalar v) (encodeEntries rest)

/-- JSONSerializer.MapToPayload (src serializer): sjson.Set("{root:false}",
"root", m) followed by gjson.Get(json, "root"), whose net effect is the
decoded view of the marshalled map. Key order is irrelevant to the
association lookups below, so Go's sorted-key marshalling is not re-sorted
here. -/
def JSONSerializer.MapToPayload (m : List (String × GoScalar)) : JSONPayload :=
  some (.obj (encodeEntries m))

/-- The serializer interface's MapToMessage as used by transit; the JSON
implementation delegates to MapToPayload. -/
def mapToMessage (m : List (String × GoScalar)) : JSONPayload :=
  JSONSerializer.MapToPayload m

def lookupD {α : Type} (l : List (String × α)) (k : String) (d : α) : α :=
  match l.find? fun kv => kv.1 == k with
  | some kv => kv.2
  | none => d

def eraseK {α : Type} (l : List (String × α)) (k : String) : List (String × α) :=
  l.filter fun kv => kv.1 != k

def setK {α : Type} (l : List (String × α)) (k : String) (v : α) : List (String × α) :=
  if (l.find? fun kv => kv.1 == k).isSome then
    l.map fun kv => if kv.1 == k then (k, v) else kv
  else l ++ [(k, v)]

/-- The context fields the transit engine reads (moleculer context package):
the correlation ID, the resolved target node and the exported call map. -/
structure Context where
  id : String
  targetNodeID : String
  asMap : List (String × GoScalar)

/-- A transit pending-request entry: the Go struct holds a *Context and a
*chan interface{}; both pointers are Option so that the zero value returned
by a missed map lookup is representable (none = nil pointer). Channels are
named by Nat identifiers. -/
structure pendingRequest where
  context : Option Context
  resultChan : Option ℕ

/-- The mutable transit state the claims concern: the pending-request table,
a plain Go map from correlation ID to entry. -/
structure TransitImpl where
  pendingRequests : List (String × pendingRequest)

/-- A value a result channel can receive: a decoded result (interface{}) or
an error value (fmt.Errorf). -/
inductive ChanVal where
  | value (v : GoVal) : ChanVal
  | err (msg : String) : ChanVal

/-- Outcome of the channel-send a handler performs: an actual send on a
channel, or a runtime panic from dereferencing the nil resultChan pointer of
a zero-value pendingRequest. -/
inductive SendRes where
  | sent (ch : ℕ) (v : ChanVal) : SendRes
  | nilPanic : SendRes

/-- A message published on the transport: (command, target nodeID, body). -/
abbrev Publish := String × String × JSONPayload

/-- transit.go reponseHandler (sic): reads the correlation id from the RES
message, fetches-and-deletes the pending entry (a missed lookup yields the
zero-value entry), and sends message.Get("data").Value() on the entry's
result channel from a spawned goroutine; when the entry was absent that
goroutine dereferences a nil *chan and panics. -/
def TransitImpl.reponseHandler (t : TransitImpl) (message : JSONPayload) :
    TransitImpl × SendRes :=
  let id := JSONPayload.String (JSONPayload.Get message "id")
  let request := lookupD t.pendingRequests id ⟨none, none⟩
  let remaining := eraseK t.pendingRequests id
  let result := JSONPayload.Value (JSONPayload.Get message "data")
  match request.resultChan with
  | none => (⟨remaining⟩, SendRes.nilPanic)
  | some ch => (⟨remaining⟩, SendRes.sent ch (ChanVal.value result))

/-- transit.go onNodeDisconnected: looks up the pending table with the
disconnected NODE id as key (the table is keyed by correlation id), sends an
error on the entry's result channel, then deletes that key. A missed lookup
yields the zero-value entry whose nil resultChan pointer is dereferenced
before the delete, so the handler panics and the table is left unchanged. -/
def TransitImpl.onNodeDisconnected (t : TransitImpl) (nodeID : String) :
    TransitImpl × SendRes :=
  let pending := lookupD t.pendingRequests nodeID ⟨none, none⟩
  match pending.resultChan with
  | none => (t, SendRes.nilPanic)
  | some ch =>
    (⟨eraseK t.pendingRequests nodeID⟩,
     SendRes.sent ch (ChanVal.err ("Node " ++ nodeID ++ " disconnected. Request being canceled.")))

/-- transit.go requestImpl: builds the payload (context map plus sender),
serializes it, and on success registers the pending entry under the
context's id and publishes REQ to the target node, returning the fresh
result channel. A serialization error panics before any registration or
publish, so the state is returned unchanged with the panic message. The
serializer is passed in (broker.GetSerializer().MapToMessage). -/
def TransitImpl.requestImpl
    (ser : List (String × GoScalar) → Except String JSONPayload)
    (localID : String) (t : TransitImpl) (context : Context) (newChan : ℕ) :
    TransitImpl × Except String (List Publish × ℕ) :=
  let payload := setK context.asMap "sender" (GoScalar.s localID)
  match ser payload with
  | .error e =>
    (t, .error ("Error trying to serialize the payload. Likely issues with the action params. Error: " ++ e))
  | .ok message =>
    (⟨setK t.pendingRequests context.id ⟨some context, some newChan⟩⟩,
     .ok ([("REQ", context.targetNodeID, message)], newChan))

/-- transit.go SendPing: publishes a PING whose body carries the local node
id and the current unix time — to the LOCAL node's own channel (the publish
target is the sender variable; SendPing has no target-node parameter). -/
def TransitImpl.SendPing (localID : String) (now : ℤ) : List Publish :=
  [("PING", localID,
    mapToMessage [("sender", GoScalar.s localID), ("time", GoScalar.i64 now)])]

/-- transit.go pingHandler: answers a PING by publishing a PONG to the
PING's sender, echoing the original time and adding the local arrival time;
the PONG body's sender field is set to the PING's sender (not to the
responding node's own id — pongHandler takes no local node input at all). -/
def TransitImpl.pingHandler (now : ℤ) (message : JSONPayload) : List Publish :=
  let sender := JSONPayload.String (JSONPayload.Get message "sender")
  [("PONG", sender,
    mapToMessage
      [("sender", GoScalar.s sender),
       ("time", GoScalar.i64 (JSONPayload.Int (JSONPayload.Get message "time"))),
       ("arrived", GoScalar.i64 now)])]

/-- Go math.Round: round half away from zero (exact over the rationals for
the magnitudes involved; Mathlib's round is round-half-up, which matches on
non-negatives and is negated on negatives). -/
def goMathRound (q : ℚ) : ℤ :=
  if q < 0 then -round (-q) else round q

/-- The local $node.pong event payload of pongHandler. -/
structure PongEvent where
  nodeID : String
  elapsedTime : ℤ
  timeDiff : ℤ
deriving DecidableEq, Repr

/-- transit.go pongHandler: computes elapsed = now - time and
timeDiff = math.Round(now - arrived - elapsed/2) over float64 (exact at
unix-second magnitudes, hence modelled over ℚ) and emits the local
$node.pong event payload. -/
def TransitImpl.pongHandler (now : ℤ) (message : JSONPayload) : PongEvent :=
  let elapsed := now - JSONPayload.Int (JSONPayload.Get message "time")
  let arrived := JSONPayload.Int (JSONPayload.Get message "arrived")
  { nodeID := JSONPayload.String (JSONPayload.Get message "sender"),
    elapsedTime := elapsed,
    timeDiff := goMathRound ((now : ℚ) - (arrived : ℚ) - (elapsed : ℚ) / 2) }

/-- The message filter CreateTransport installs on the transport (its
validateMsg closure): a node's subscription accepts a message only when the
body's sender differs from the local node id. -/
def validateMsg (localNodeID : String) (message : JSONPayload) : Bool :=
  JSONPayload.String (JSONPayload.Get message "sender") != localNodeID

/-- Round half away from zero of n/2, as an integer function: the convention
Go's math.Round implements, stated independently of the ℚ computation in
pongHandler so the skew theorem characterizes the code's rounding. -/
def goAway (n : ℤ) : ℤ :=
  if 0 ≤ n then ((n.toNat + 1) / 2 : ℕ) else -((((-n).toNat + 1) / 2 : ℕ) : ℤ)

/-- Modelled from the spec: the claim's skew formula
"timeDiff = round(T2 - T1 - (T2 - T0)/2) using the round-half-up
convention"; Mathlib's round is exactly round-half-up (⌊x + 1/2⌋). Stated
for comparison against the code's pongHandler. -/
def specPongTimeDiff (T0 T1 T2 : ℤ) : ℤ :=
  round ((T2 : ℚ) - (T1 : ℚ) - ((T2 : ℚ) - (T0 : ℚ)) / 2)

/-- A PONG wire message as the modelled marshaller produces it. -/
def mkPongMsg (S : String) (T0 T1 : ℤ) : JSONPayload :=
  some (.obj (.cons "sender" (.str S)
    (.cons "time" (.num (T0 : ℚ)) (.cons "arrived" (.num (T1 : ℚ)) .nil))))

/-- Characters gjson's path syntax treats specially: separators, escapes,
wildcards, modifiers, queries and multipaths. -/
def pathSpecials : List Char :=
  ['.', '|', '\\', '*', '?', '@', '#', '[', ']', '\x7b', '\x7d', '(', ')', ',']

/-- A map key that gjson interprets as a plain one-component path. -/
def PlainKey (k : String) : Prop :=
  k ≠ "" ∧ ∀ c ∈ k.data, c ∉ pathSpecials

instance (k : String) : Decidable (PlainKey k) := by
  unfold PlainKey; infer_instance

/-- Side conditions under which a Go scalar survives the wire: 64-bit
integer ranges, and the date ranges time.Parse accepts. Strings, booleans
and float64 values (exact rationals here) carry no side condition. -/
def ScalarValid : GoScalar → Prop
  | .i n => -(2 ^ 63) ≤ n ∧ n < 2 ^ 63
  | .i64 n => -(2 ^ 63) ≤ n ∧ n < 2 ^ 63
  | .u n => n < 2 ^ 64
  | .t dt => dt.Valid
  | _ => True

instance (v : GoScalar) : Decidable (ScalarValid v) := by
  cases v <;> simp only [ScalarValid] <;> infer_instance

/-- Extraction of a key "with the matching typed accessor" (claim C9): the
first argument only selects which accessor to apply. -/
def readBack : GoScalar → JSONPayload → GoScalar
  | .s _, p => .s (JSONPayload.String p)
  | .i _, p => .i (JSONPayload.Int p)
  | .i64 _, p => .i64 (JSONPayload.Int64 p)
  | .u _, p => .u (JSONPayload.Uint p)
  | .f _, p => .f (JSONPayload.Float p)
  | .b _, p => .b (JSONPayload.Bool p)
  | .t _, p => .t (JSONPayload.Time p)

theorem round_half_int (k : ℤ) : round ((k : ℚ) + 1 / 2) = k + 1 := by
  rw [add_comm, round_add_int]
  norm_num [round_eq]
  omega

theorem goAway_even (k : ℤ) : goAway (2 * k) = k := by
  unfold goAway; split <;> omega

theorem goAway_odd (k : ℤ) : goAway (2 * k + 1) = if 0 ≤ k then k + 1 else k := by
  unfold goAway; split <;> split <;> omega

theorem goMathRound_half (n : ℤ) : goMathRound ((n : ℚ) / 2) = goAway n := by
  obtain ⟨k, hk | hk⟩ := Int.even_or_odd' n
  · subst hk
    rw [goAway_even, goMathRound, show ((2 * k : ℤ) : ℚ) / 2 = ((k : ℤ) : ℚ) by push_cast; ring]
    by_cases h : k < 0
    · rw [if_pos (by exact_mod_cast h)]
      rw [show -((k : ℤ) : ℚ) = ((-k : ℤ) : ℚ) by push_cast; ring, round_intCast]
      ring
    · rw [if_neg (by exact_mod_cast h), round_intCast]
  · subst hk
    rw [goAway_odd, goMathRound, show ((2 * k + 1 : ℤ) : ℚ) / 2 = ((k : ℤ) : ℚ) + 1 / 2 by push_cast; ring]
    by_cases h : 0 ≤ k
    · have hge : (0 : ℚ) ≤ (k : ℚ) := by exact_mod_cast h
      rw [if_neg (by linarith), round_half_int, if_pos h]
    · have hk1 : k ≤ -1 := by omega
      have hle : (k : ℚ) ≤ -1 := by exact_mod_cast hk1
      rw [if_pos (by linarith), if_neg h,
        show -((k : ℚ) + 1 / 2) = ((-k - 1 : ℤ) : ℚ) + 1 / 2 by push_cast; ring,
        round_half_int]
      ring

theorem gjsonInt_intCast (n : ℤ) (hlo : -(2 ^ 63) ≤ n) (hhi : n < 2 ^ 63) :
    gjsonInt ((n : ℤ) : ℚ) = n := by
  unfold gjsonInt
  by_cases hf : -(2 ^ 53 - 1) ≤ ((n : ℤ) : ℚ) ∧ ((n : ℤ) : ℚ) ≤ 2 ^ 53 - 1
  · rw [if_pos hf]
    unfold truncQ
    split
    · exact Int.ceil_intCast n
    · exact Int.floor_intCast n
  · have hden : ((n : ℤ) : ℚ).den = 1 := Rat.den_intCast n
    have hnum : ((n : ℤ) : ℚ).num = n := Rat.num_intCast n
    rw [if_neg hf, if_pos ⟨hden, by rw [hnum]; exact hlo, by rw [hnum]; exact hhi⟩, hnum]

theorem gjsonUint_natCast (n : ℕ) (hhi : n < 2 ^ 64) :
    gjsonUint ((n : ℕ) : ℚ) = n := by
  have hnn : ¬(((n : ℕ) : ℚ) < 0) := by push_neg; positivity
  have ht : truncQ ((n : ℕ) : ℚ) = (n : ℤ) := by
    unfold truncQ
    rw [if_neg hnn]
    exact_mod_cast Int.floor_natCast n
  unfold gjsonUint
  by_cases hf : -(2 ^ 53 - 1) ≤ ((n : ℕ) : ℚ) ∧ ((n : ℕ) : ℚ) ≤ 2 ^ 53 - 1
  · rw [if_pos ⟨hf, by rw [ht]; omega⟩, ht]
    omega
  · have hden : ((n : ℕ) : ℚ).den = 1 := Rat.den_natCast n
    have hnum : ((n : ℕ) : ℚ).num = n := Rat.num_natCast n
    rw [if_neg (by tauto), if_pos ⟨hden, by rw [hnum]; omega, by rw [hnum]; exact_mod_cast hhi⟩, hnum]
    omega

theorem splitComps_plain (cs : List Char) (acc : List Char)
    (h : ∀ c ∈ cs, c ≠ '\\' ∧ c ≠ '.' ∧ c ≠ '|') :
    splitComps cs acc = [String.mk (acc.reverse ++ cs)] := by
  induction cs generalizing acc with
  | nil => simp [splitComps]
  | cons c rest ih =>
    obtain ⟨hb, hd, hp⟩ := h c (List.mem_cons_self c rest)
    have hrest : ∀ x ∈ rest, x ≠ '\\' ∧ x ≠ '.' ∧ x ≠ '|' :=
      fun x hx => h x (List.mem_cons_of_mem c hx)
    rw [splitComps.eq_def]
    dsimp only
    rw [if_neg (by simp [hb]), if_neg (by simp [hd, hp]), ih _ hrest]
    simp

theorem pathSplit_plain (k : String) (hk : PlainKey k) : pathSplit k = [k] := by
  obtain ⟨_, hch⟩ := hk
  have h : ∀ c ∈ k.data, c ≠ '\\' ∧ c ≠ '.' ∧ c ≠ '|' := by
    intro c hc
    have := hch c hc
    simp [pathSpecials] at this
    tauto
  rw [pathSplit, splitComps_plain k.data [] h]
  simp

theorem isWild_plain (k : String) (hch : ∀ c ∈ k.data, c ∉ pathSpecials) :
    isWild k = false := by
  rw [isWild, List.any_eq_false]
  intro c hc
  have := hch c hc
  simp [pathSpecials] at this
  simp [this.2.2.2.1, this.2.2.2.2.1]

theorem keyMatches_plain (c k : String) (hw : isWild c = false) :
    keyMatches c k = (c == k) := by
  rw [keyMatches, hw]
  simp

theorem findKey_encode (k : String) (v : GoScalar) (hw : isWild k = false) :
    ∀ (m : List (String × GoScalar)), (m.map Prod.fst).Nodup → (k, v) ∈ m →
      JsonObj.findKey k (encodeEntries m) = some (encodeScalar v)
  | [], _, hmem => by cases hmem
  | (k0, v0) :: tl, hnd, hmem => by
    rw [List.map_cons] at hnd
    obtain ⟨hk0, hndtl⟩ := List.nodup_cons.mp hnd
    simp only [encodeEntries, JsonObj.findKey, keyMatches_plain k k0 hw]
    by_cases hk : k = k0
    · subst hk
      have hv : v = v0 := by
        rcases List.mem_cons.mp hmem with heq | htl
        · exact (Prod.mk.injEq k v k v0 ▸ heq).2
        · exact absurd (List.mem_map_of_mem Prod.fst htl) hk0
      simp [hv]
    · rw [if_neg (by simp [hk])]
      have htl : (k, v) ∈ tl := by
        rcases List.mem_cons.mp hmem with heq | htl
        · exact absurd (congrArg Prod.fst heq) hk
        · exact htl
      exact findKey_encode k v hw tl hndtl htl

theorem findKey_encode_none (k : String) (hw : isWild k = false) :
    ∀ (m : List (String × GoScalar)), k ∉ m.map Prod.fst →
      JsonObj.findKey k (encodeEntries m) = none
  | [], _ => rfl
  | (k0, v0) :: tl, habs => by
    rw [List.map_cons] at habs
    have hk : ¬(k = k0) := fun h => habs (h ▸ List.mem_cons_self k0 (tl.map Prod.fst))
    have htl : k ∉ tl.map Prod.fst := fun h => habs (List.mem_cons_of_mem k0 h)
    simp only [encodeEntries, JsonObj.findKey, keyMatches_plain k k0 hw]
    rw [if_neg (by simp [hk])]
    exact findKey_encode_none k hw tl htl

theorem pathInObj_findKey (c : String) (cs : List String) :
    ∀ (entries : JsonObj) (v : Json), pathInObj c cs entries = false →
      JsonObj.findKey c entries = some v → pathInB cs v = false
  | .nil, v, _, hf => by simp [JsonObj.findKey] at hf
  | .cons k w tl, v, hobj, hf => by
    simp only [pathInObj, Bool.or_eq_false_iff, Bool.and_eq_false_iff] at hobj
    by_cases hkm : keyMatches c k
    · have hv : w = v := by simpa [JsonObj.findKey, hkm] using hf
      rcases hobj.1 with h | h
      · exact absurd hkm (by simp [h])
      · exact hv ▸ h
    · have hf' : JsonObj.findKey c tl = some v := by
        simpa [JsonObj.findKey, hkm] using hf
      exact pathInObj_findKey c cs tl v hobj.2 hf'

theorem pathInArr_get? (cs : List String) :
    ∀ (elems : JsonList) (i : ℕ) (v : Json), pathInArr cs elems = false →
      JsonList.get? i elems = some v → pathInB cs v = false
  | .nil, i, v, _, hf => by cases i <;> simp [JsonList.get?] at hf
  | .cons hd tl, i, v, harr, hf => by
    simp only [pathInArr, Bool.or_eq_false_iff] at harr
    cases i with
    | zero =>
      have hv : hd = v := by simpa [JsonList.get?] using hf
      exact hv ▸ harr.1
    | succ n =>
      exact pathInArr_get? cs tl n v harr.2 (by simpa [JsonList.get?] using hf)

theorem jsonGetPath_missing (cs : List String) (j : Json)
    (h : pathInB cs j = false) : jsonGetPath cs j = none := by
  induction cs generalizing j with
  | nil => simp [pathInB] at h
  | cons c rest ih =>
    cases j with
    | obj entries =>
      simp only [jsonGetPath]
      cases hf : JsonObj.findKey c entries with
      | none => rfl
      | some v =>
        have hobj : pathInObj c rest entries = false := by
          simpa [pathInB] using h
        exact ih v (pathInObj_findKey c rest entries v hobj hf)
    | arr elems =>
      simp only [pathInB, Bool.or_eq_false_iff] at h
      simp only [jsonGetPath]
      cases hx : toIndex c with
      | some i =>
        dsimp only
        cases hg : JsonList.get? i elems with
        | none => rfl
        | some v => exact ih v (pathInArr_get? rest elems i v h.2 hg)
      | none =>
        dsimp only
        rw [if_neg (by simp [h.1])]
    | null => rfl
    | bool b => rfl
    | num q => rfl
    | str s => rfl

theorem pDigit_digitChar (d : ℕ) (hd : d < 10) (r : List Char) :
    pDigit (digitChar d :: r) = some (d, r) := by
  interval_cases d <;> rfl

theorem pLit_self (x : Char) (r : List Char) : pLit x (x :: r) = some r := by
  simp [pLit]

theorem p2_pad2 (n : ℕ) (hn : n < 100) (r : List Char) :
    p2 (pad2 n ++ r) = some (n, r) := by
  have h1 : n / 10 % 10 < 10 := Nat.mod_lt _ (by norm_num)
  have h2 : n % 10 < 10 := Nat.mod_lt _ (by norm_num)
  simp only [pad2, List.cons_append, List.nil_append]
  simp only [p2, pDigit_digitChar _ h1, pDigit_digitChar _ h2]
  have : 10 * (n / 10 % 10) + n % 10 = n := by omega
  rw [this]

theorem p4_pad4 (n : ℕ) (hn : n < 10000) (r : List Char) :
    p4 (pad4 n ++ r) = some (n, r) := by
  have ha : n / 1000 % 10 < 10 := Nat.mod_lt _ (by norm_num)
  have hb : n / 100 % 10 < 10 := Nat.mod_lt _ (by norm_num)
  have hc : n / 10 % 10 < 10 := Nat.mod_lt _ (by norm_num)
  have hd : n % 10 < 10 := Nat.mod_lt _ (by norm_num)
  simp only [pad4, List.cons_append, List.nil_append]
  simp only [p4, p2, pDigit_digitChar _ ha, pDigit_digitChar _ hb,
    pDigit_digitChar _ hc, pDigit_digitChar _ hd]
  have : 100 * (10 * (n / 1000 % 10) + n / 100 % 10) +
      (10 * (n / 10 % 10) + n % 10) = n := by omega
  rw [this]

theorem daysInMonth_le (y m : ℕ) : daysInMonth y m ≤ 31 := by
  unfold daysInMonth
  split_ifs <;> omega

theorem rfc3339_roundtrip (t : DateTime) (h : t.Valid) :
    rfc3339Parse (rfc3339Format t) = some t := by
  obtain ⟨y, mo, da, hh, mi, se⟩ := t
  obtain ⟨h1, h2, h3, h4, h5, h6, h7, h8⟩ := h
  dsimp only at h1 h2 h3 h4 h5 h6 h7 h8
  have hdm := daysInMonth_le y mo
  have hdata : (rfc3339Format ⟨y, mo, da, hh, mi, se⟩).data =
      pad4 y ++ ('-' :: (pad2 mo ++ ('-' :: (pad2 da ++
        ('T' :: (pad2 hh ++ (':' :: (pad2 mi ++
          (':' :: (pad2 se ++ ['Z'])))))))))) := rfl
  rw [rfc3339Parse, hdata]
  simp only [p4_pad4 y (by omega), pLit_self, p2_pad2 mo (by omega),
    p2_pad2 da (by omega), p2_pad2 hh (by omega), p2_pad2 mi (by omega),
    p2_pad2 se (by omega)]
  exact if_pos ⟨h1, h2, h3, h4, h5, h6, h7, h8⟩

theorem readBack_encode (v : GoScalar) (hv : ScalarValid v) :
    readBack v (some (encodeScalar v)) = v := by
  cases v with
  | s s => rfl
  | i n =>
    obtain ⟨hlo, hhi⟩ := hv
    simp only [readBack, encodeScalar, JSONPayload.Int, JSONPayload.Int64]
    rw [gjsonInt_intCast n hlo hhi]
  | i64 n =>
    obtain ⟨hlo, hhi⟩ := hv
    simp only [readBack, encodeScalar, JSONPayload.Int64]
    rw [gjsonInt_intCast n hlo hhi]
  | u n =>
    simp only [readBack, encodeScalar, JSONPayload.Uint]
    rw [gjsonUint_natCast n hv]
  | f q => rfl
  | b b => cases b <;> rfl
  | t dt =>
    simp only [readBack, encodeScalar, JSONPayload.Time]
    have hs : JSONPayload.String (some (Json.str (rfc3339Format dt))) =
        rfc3339Format dt := rfl
    rw [hs, rfc3339_roundtrip dt hv]

/-- Claim C9 (amended): encoding a mapping of supported scalars with
MapToPayload/MapToMessage and extracting a key with the matching typed
accessor yields the original value, and extracting an absent key yields a
non-existent view — provided the keys are plain gjson path components
(non-empty and free of the path metacharacters; see the counterexample
roundtrip_dotted_key_counterexample for why a key such as "a.b" must be
excluded). Side conditions: 64-bit ranges for integer scalars and valid
marshallable dates for time scalars. -/
theorem map_roundtrip_plain_keys (m : List (String × GoScalar)) (k k2 : String)
    (v : GoScalar) (hnd : (m.map Prod.fst).Nodup) (hk : PlainKey k)
    (hmem : (k, v) ∈ m) (hv : ScalarValid v) (hk2 : PlainKey k2)
    (habs : k2 ∉ m.map Prod.fst) :
    readBack v (JSONPayload.Get (JSONSerializer.MapToPayload m) k) = v ∧
    JSONPayload.Exists (JSONPayload.Get (JSONSerializer.MapToPayload m) k2) = false := by
  have hw : isWild k = false := isWild_plain k hk.2
  have hw2 : isWild k2 = false := isWild_plain k2 hk2.2
  constructor
  · rw [JSONSerializer.MapToPayload, JSONPayload.Get, pathSplit_plain k hk]
    simp only [jsonGetPath, findKey_encode k v hw m hnd hmem]
    exact readBack_encode v hv
  · rw [JSONSerializer.MapToPayload, JSONPayload.Get, pathSplit_plain k2 hk2]
    simp only [jsonGetPath, findKey_encode_none k2 hw2 m habs]
    rfl

/-- Witness for map_roundtrip_plain_keys at a concrete three-entry map,
recovering a time scalar and reporting a missing key as non-existent. -/
theorem map_roundtrip_plain_keys_check :
    readBack (GoScalar.t ⟨2020, 2, 29, 23, 59, 59⟩)
      (JSONPayload.Get
        (JSONSerializer.MapToPayload
          [("name", GoScalar.s "math.add"), ("when", GoScalar.t ⟨2020, 2, 29, 23, 59, 59⟩),
           ("count", GoScalar.i 42)])
        "when") = GoScalar.t ⟨2020, 2, 29, 23, 59, 59⟩ ∧
    JSONPayload.Exists
      (JSONPayload.Get
        (JSONSerializer.MapToPayload
          [("name", GoScalar.s "math.add"), ("when", GoScalar.t ⟨2020, 2, 29, 23, 59, 59⟩),
           ("count", GoScalar.i 42)])
        "flag") = false :=
  map_roundtrip_plain_keys _ "when" "flag" _ (by decide) (by decide) (by decide)
    (by decide) (by decide) (by decide)

/-- Counterexample to claim C9 as stated: for the mapping [("a.b", 1)] the
typed extraction of the key "a.b" yields 0 (and a non-existent view), not
the original value 1, because gjson interprets the key as the path a → b. -/
theorem roundtrip_dotted_key_counterexample :
    JSONPayload.Int
      (JSONPayload.Get (JSONSerializer.MapToPayload [("a.b", GoScalar.i 1)]) "a.b") = 0 ∧
    JSONPayload.Exists
      (JSONPayload.Get (JSONSerializer.MapToPayload [("a.b", GoScalar.i 1)]) "a.b") = false := by
  constructor <;> decide

/-- Claim C8: for every decoded payload and every path not (structurally)
present in it, Get yields the missing view: Exists() is false and every
typed scalar accessor (String, Int, Int64, Uint, Float, Bool, Time, Value)
returns the zero value of its type; no accessor can fail or panic since all
are total. Paths are the dot/pipe/wildcard/index fragment of gjson path
syntax modelled by pathSplit/jsonGetPath. -/
theorem missing_path_zero_values (j : Json) (path : String)
    (habs : pathInB (pathSplit path) j = false) :
    JSONPayload.Get (some j) path = none ∧
    JSONPayload.Exists (JSONPayload.Get (some j) path) = false ∧
    JSONPayload.String (JSONPayload.Get (some j) path) = "" ∧
    JSONPayload.Int (JSONPayload.Get (some j) path) = 0 ∧
    JSONPayload.Int64 (JSONPayload.Get (some j) path) = 0 ∧
    JSONPayload.Uint (JSONPayload.Get (some j) path) = 0 ∧
    JSONPayload.Float (JSONPayload.Get (some j) path) = 0 ∧
    JSONPayload.Bool (JSONPayload.Get (some j) path) = false ∧
    JSONPayload.Time (JSONPayload.Get (some j) path) = ⟨1, 1, 1, 0, 0, 0⟩ ∧
    JSONPayload.Value (JSONPayload.Get (some j) path) = GoVal.nil := by
  have hg : JSONPayload.Get (some j) path = none := by
    rw [JSONPayload.Get]
    exact jsonGetPath_missing (pathSplit path) j habs
  rw [hg]
  exact ⟨rfl, rfl, rfl, rfl, rfl, rfl, rfl, rfl, rfl, rfl⟩

/-- Witness for missing_path_zero_values at a concrete REQ-like payload and
the absent nested path "params.b". -/
theorem missing_path_zero_values_check :
    pathInB (pathSplit "params.b")
      (.obj (.cons "sender" (.str "node1")
        (.cons "params" (.obj (.cons "a" (.num (1 : ℚ)) .nil)) .nil))) = false ∧
    (JSONPayload.Get
      (some (.obj (.cons "sender" (.str "node1")
        (.cons "params" (.obj (.cons "a" (.num (1 : ℚ)) .nil)) .nil)))) "params.b" = none ∧
    JSONPayload.Exists
      (JSONPayload.Get
        (some (.obj (.cons "sender" (.str "node1")
          (.cons "params" (.obj (.cons "a" (.num (1 : ℚ)) .nil)) .nil)))) "params.b") = false ∧
    JSONPayload.String
      (JSONPayload.Get
        (some (.obj (.cons "sender" (.str "node1")
          (.cons "params" (.obj (.cons "a" (.num (1 : ℚ)) .nil)) .nil)))) "params.b") = "" ∧
    JSONPayload.Int
      (JSONPayload.Get
        (some (.obj (.cons "sender" (.str "node1")
          (.cons "params" (.obj (.cons "a" (.num (1 : ℚ)) .nil)) .nil)))) "params.b") = 0 ∧
    JSONPayload.Int64
      (JSONPayload.Get
        (some (.obj (.cons "sender" (.str "node1")
          (.cons "params" (.obj (.cons "a" (.num (1 : ℚ)) .nil)) .nil)))) "params.b") = 0 ∧
    JSONPayload.Uint
      (JSONPayload.Get
        (some (.obj (.cons "sender" (.str "node1")
          (.cons "params" (.obj (.cons "a" (.num (1 : ℚ)) .nil)) .nil)))) "params.b") = 0 ∧
    JSONPayload.Float
      (JSONPayload.Get
        (some (.obj (.cons "sender" (.str "node1")
          (.cons "params" (.obj (.cons "a" (.num (1 : ℚ)) .nil)) .nil)))) "params.b") = 0 ∧
    JSONPayload.Bool
      (JSONPayload.Get
        (some (.obj (.cons "sender" (.str "node1")
          (.cons "params" (.obj (.cons "a" (.num (1 : ℚ)) .nil)) .nil)))) "params.b") = false ∧
    JSONPayload.Time
      (JSONPayload.Get
        (some (.obj (.cons "sender" (.str "node1")
          (.cons "params" (.obj (.cons "a" (.num (1 : ℚ)) .nil)) .nil)))) "params.b") = ⟨1, 1, 1, 0, 0, 0⟩ ∧
    JSONPayload.Value
      (JSONPayload.Get
        (some (.obj (.cons "sender" (.str "node1")
          (.cons "params" (.obj (.cons "a" (.num (1 : ℚ)) .nil)) .nil)))) "params.b") = GoVal.nil) :=
  ⟨by decide, missing_path_zero_values _ "params.b" (by decide)⟩

/-- Claim C4: requestImpl is atomic around serialization: when the
serializer fails, Request panics (the Except.error carries the panic text of
transit.go line 159) with the state unchanged — no pending entry registered
and no REQ published; when it succeeds, the pending entry is registered
under the context's id and exactly one REQ is published to the target node,
and the fresh result channel is returned. -/
theorem requestImpl_serialization_atomicity
    (ser : List (String × GoScalar) → Except String JSONPayload)
    (localID : String) (t : TransitImpl) (context : Context) (ch : ℕ) :
    (∀ e, ser (setK context.asMap "sender" (GoScalar.s localID)) = Except.error e →
      TransitImpl.requestImpl ser localID t context ch =
        (t, Except.error
          ("Error trying to serialize the payload. Likely issues with the action params. Error: " ++ e))) ∧
    (∀ message, ser (setK context.asMap "sender" (GoScalar.s localID)) = Except.ok message →
      TransitImpl.requestImpl ser localID t context ch =
        (⟨setK t.pendingRequests context.id ⟨some context, some ch⟩⟩,
         Except.ok ([("REQ", context.targetNodeID, message)], ch))) := by
  constructor
  · intro e he
    simp only [TransitImpl.requestImpl, he]
  · intro message hm
    simp only [TransitImpl.requestImpl, hm]

/-- Witness for requestImpl_serialization_atomicity with a failing and a
succeeding serializer at a concrete context. -/
theorem requestImpl_serialization_atomicity_check :
    TransitImpl.requestImpl (fun _ => Except.error "boom") "nodeL" ⟨[]⟩
      ⟨"ctx1", "nodeT", [("action", GoScalar.s "math.add")]⟩ 7 =
      (⟨[]⟩, Except.error
        ("Error trying to serialize the payload. Likely issues with the action params. Error: " ++ "boom")) ∧
    TransitImpl.requestImpl (fun mp => Except.ok (JSONSerializer.MapToPayload mp)) "nodeL" ⟨[]⟩
      ⟨"ctx1", "nodeT", [("action", GoScalar.s "math.add")]⟩ 7 =
      (⟨[("ctx1", ⟨some ⟨"ctx1", "nodeT", [("action", GoScalar.s "math.add")]⟩, some 7⟩)]⟩,
       Except.ok ([("REQ", "nodeT",
         JSONSerializer.MapToPayload
           [("action", GoScalar.s "math.add"), ("sender", GoScalar.s "nodeL")])], 7)) :=
  ⟨(requestImpl_serialization_atomicity (fun _ => Except.error "boom") "nodeL" ⟨[]⟩
      ⟨"ctx1", "nodeT", [("action", GoScalar.s "math.add")]⟩ 7).1 "boom" rfl,
   (requestImpl_serialization_atomicity (fun mp => Except.ok (JSONSerializer.MapToPayload mp)) "nodeL" ⟨[]⟩
      ⟨"ctx1", "nodeT", [("action", GoScalar.s "math.add")]⟩ 7).2 _ rfl⟩

/-- Claim C10: for any RES message whose id matches a pending entry with a
live channel, reponseHandler delivers the raw Value() of the message's
"data" field on that channel and erases the entry — the message is otherwise
unconstrained, so the success flag and any error-shaped body are ignored and
the delivery is always a ChanVal.value, never an error. -/
theorem res_raw_data_delivery (t : TransitImpl) (message : JSONPayload)
    (entry : pendingRequest) (ch : ℕ)
    (hfound : lookupD t.pendingRequests
      (JSONPayload.String (JSONPayload.Get message "id")) ⟨none, none⟩ = entry)
    (hch : entry.resultChan = some ch) :
    TransitImpl.reponseHandler t message =
      (⟨eraseK t.pendingRequests (JSONPayload.String (JSONPayload.Get message "id"))⟩,
       SendRes.sent ch (ChanVal.value (JSONPayload.Value (JSONPayload.Get message "data")))) := by
  simp only [TransitImpl.reponseHandler, hfound, hch]

/-- Witness for res_raw_data_delivery on a RES with success=false whose
data field satisfies IsError: it is still delivered as a plain value. -/
theorem res_raw_data_delivery_check :
    TransitImpl.reponseHandler
      ⟨[("c1", ⟨some ⟨"c1", "remote", []⟩, some 5⟩)]⟩
      (some (.obj (.cons "id" (.str "c1") (.cons "sender" (.str "remote")
        (.cons "success" (.bool false)
          (.cons "data" (.obj (.cons "error" (.str "boom") .nil)) .nil)))))) =
      (⟨[]⟩, SendRes.sent 5 (ChanVal.value (GoVal.obj [("error", GoVal.str "boom")]))) ∧
    JSONPayload.Bool
      (JSONPayload.Get
        (some (.obj (.cons "id" (.str "c1") (.cons "sender" (.str "remote")
          (.cons "success" (.bool false)
            (.cons "data" (.obj (.cons "error" (.str "boom") .nil)) .nil))))) : JSONPayload)
        "success") = false ∧
    JSONPayload.IsError
      (JSONPayload.Get
        (some (.obj (.cons "id" (.str "c1") (.cons "sender" (.str "remote")
          (.cons "success" (.bool false)
            (.cons "data" (.obj (.cons "error" (.str "boom") .nil)) .nil))))) : JSONPayload)
        "data") = true :=
  ⟨res_raw_data_delivery ⟨[("c1", ⟨some ⟨"c1", "remote", []⟩, some 5⟩)]⟩ _
      ⟨some ⟨"c1", "remote", []⟩, some 5⟩ 5 rfl rfl, rfl, rfl⟩

/-- Claim C1 (code bug): the claimed exactly-once / idempotent-loser
discipline does not hold in the code. After a matching RES delivers and
removes entry "c1" (first conjunct: exactly one send), the disconnect
cancellation for the target node does not observe the entry gone and send
nothing — it dereferences the nil result-channel pointer of the zero-value
entry and panics (second conjunct). The table is also a plain Go map with no
mutex, so the mutual exclusion the claim presupposes does not exist. -/
theorem transit_res_disconnect_race_code_bug :
    TransitImpl.reponseHandler
      ⟨[("c1", ⟨some ⟨"c1", "n1", []⟩, some 0⟩)]⟩
      (some (.obj (.cons "id" (.str "c1") (.cons "sender" (.str "n1")
        (.cons "success" (.bool true) (.cons "data" (.num (7 : ℚ)) .nil)))))) =
      (⟨[]⟩, SendRes.sent 0 (ChanVal.value (GoVal.num (7 : ℚ)))) ∧
    TransitImpl.onNodeDisconnected ⟨[]⟩ "n1" = (⟨[]⟩, SendRes.nilPanic) := by
  constructor <;> rfl

/-- Claim C2 (code bug): a RES whose id is not in the pending table leaves
every other entry unchanged, but it is not a no-op: the handler's delivery
goroutine dereferences the zero-value entry's nil result-channel pointer and
panics instead of delivering nothing. -/
theorem unmatched_res_nil_deref :
    TransitImpl.reponseHandler
      ⟨[("c9", ⟨some ⟨"c9", "n2", []⟩, some 3⟩)]⟩
      (some (.obj (.cons "id" (.str "zz") (.cons "sender" (.str "n1")
        (.cons "data" (.num (5 : ℚ)) .nil))))) =
      (⟨[("c9", ⟨some ⟨"c9", "n2", []⟩, some 3⟩)]⟩, SendRes.nilPanic) := by
  rfl

/-- Claim C3 (code bug): on $node.disconnected("n1") the pending entry
whose call targets node "n1" (correlation id "c1") receives no error and is
not removed: onNodeDisconnected looks the table up by the node id, misses,
dereferences the zero-value entry's nil channel pointer and panics, leaving
the table unchanged. -/
theorem disconnect_cancellation_keying_bug :
    TransitImpl.onNodeDisconnected
      ⟨[("c1", ⟨some ⟨"c1", "n1", []⟩, some 0⟩)]⟩ "n1" =
      (⟨[("c1", ⟨some ⟨"c1", "n1", []⟩, some 0⟩)]⟩, SendRes.nilPanic) := by
  rfl

/-- Claim C6 (code bug): SendPing publishes exactly one PING with sender
and unix-time body fields, but to the LOCAL node's own channel (the function
has no target-node parameter), and the transport's self-message filter then
rejects that very message — contradicting the claim that the target is
another node's channel. -/
theorem sendping_targets_local_node :
    TransitImpl.SendPing "node-A" 99 =
      [("PING", "node-A",
        mapToMessage [("sender", GoScalar.s "node-A"), ("time", GoScalar.i64 99)])] ∧
    validateMsg "node-A"
      (mapToMessage [("sender", GoScalar.s "node-A"), ("time", GoScalar.i64 99)]) = false := by
  constructor <;> rfl

/-- Claim C7 (code bug): the PING handler publishes exactly one PONG to
the PING's sender with the echoed time and the local arrival time, but the
PONG body's sender field is the PINGing node's id "A", not the responding
node's own id — so the self-message filter at node "A" rejects the PONG and
the claimed sender convention is violated. -/
theorem pong_sender_field_bug :
    TransitImpl.pingHandler 1002
      (some (.obj (.cons "sender" (.str "A") (.cons "time" (.num (1000 : ℚ)) .nil)))) =
      [("PONG", "A",
        mapToMessage [("sender", GoScalar.s "A"), ("time", GoScalar.i64 1000),
          ("arrived", GoScalar.i64 1002)])] ∧
    validateMsg "A"
      (mapToMessage [("sender", GoScalar.s "A"), ("time", GoScalar.i64 1000),
        ("arrived", GoScalar.i64 1002)]) = false := by
  constructor
  · have ht : JSONPayload.Int
        (JSONPayload.Get
          (some (.obj (.cons "sender" (.str "A") (.cons "time" (.num (1000 : ℚ)) .nil))) : JSONPayload)
          "time") = 1000 := by
      show gjsonInt ((1000 : ℚ)) = 1000
      norm_num [gjsonInt, truncQ]
    simp only [TransitImpl.pingHandler, ht]
    rfl
  · rfl

/-- Claim C5 (amended): the PONG handler emits nodeID = the message's
sender, elapsedTime = T2 - T0 and timeDiff = round(T2 - T1 - (T2 - T0)/2)
under the round-half-AWAY-FROM-ZERO convention of Go's math.Round (goAway
over the doubled integer argument), which agrees with round-half-up on
non-negative arguments. The magnitude bounds keep the source's float64
arithmetic exact, so the ℚ model is faithful. -/
theorem pong_skew_formula (S : String) (T0 T1 T2 : ℤ)
    (h0l : -(2 ^ 50) ≤ T0) (h0h : T0 ≤ 2 ^ 50)
    (h1l : -(2 ^ 50) ≤ T1) (h1h : T1 ≤ 2 ^ 50)
    (_h2l : -(2 ^ 50) ≤ T2) (_h2h : T2 ≤ 2 ^ 50) :
    TransitImpl.pongHandler T2 (mkPongMsg S T0 T1) =
      { nodeID := S, elapsedTime := T2 - T0,
        timeDiff := goAway (2 * (T2 - T1) - (T2 - T0)) } := by
  have e0 : JSONPayload.Int (JSONPayload.Get (mkPongMsg S T0 T1) "time") = T0 := by
    show gjsonInt ((T0 : ℤ) : ℚ) = T0
    exact gjsonInt_intCast T0 (by omega) (by omega)
  have e1 : JSONPayload.Int (JSONPayload.Get (mkPongMsg S T0 T1) "arrived") = T1 := by
    show gjsonInt ((T1 : ℤ) : ℚ) = T1
    exact gjsonInt_intCast T1 (by omega) (by omega)
  have es : JSONPayload.String (JSONPayload.Get (mkPongMsg S T0 T1) "sender") = S := rfl
  simp only [TransitImpl.pongHandler, e0, e1, es]
  have harg : (T2 : ℚ) - (T1 : ℚ) - ((T2 - T0 : ℤ) : ℚ) / 2 =
      ((2 * (T2 - T1) - (T2 - T0) : ℤ) : ℚ) / 2 := by
    push_cast
    ring
  rw [harg, goMathRound_half]

/-- Witness for pong_skew_formula at the claim's concrete case
T0=1000, T1=1001, T2=1003: elapsedTime 3 and timeDiff 1. -/
theorem pong_skew_formula_check :
    TransitImpl.pongHandler 1003 (mkPongMsg "B" 1000 1001) =
      { nodeID := "B", elapsedTime := 3, timeDiff := 1 } := by
  have h := pong_skew_formula "B" 1000 1001 1003 (by norm_num) (by norm_num)
    (by norm_num) (by norm_num) (by norm_num) (by norm_num)
  rw [h]
  decide

/-- Counterexample to claim C5 as stated: at T0=1000, T1=1003, T2=1003 the
argument is -3/2; the code (math.Round, half away from zero) emits -2 while
the claimed round-half-up convention (Mathlib round, ⌊x + 1/2⌋) gives -1. -/
theorem pong_half_up_counterexample :
    (TransitImpl.pongHandler 1003 (mkPongMsg "B" 1000 1003)).timeDiff = -2 ∧
    specPongTimeDiff 1000 1003 1003 = -1 := by
  constructor
  · show goMathRound ((1003 : ℚ) - ((gjsonInt ((1003 : ℤ) : ℚ) : ℤ) : ℚ) -
      (((1003 - gjsonInt ((1000 : ℤ) : ℚ) : ℤ)) : ℚ) / 2) = -2
    rw [show gjsonInt ((1000 : ℤ) : ℚ) = 1000 from gjsonInt_intCast 1000 (by norm_num) (by norm_num),
        show gjsonInt ((1003 : ℤ) : ℚ) = 1003 from gjsonInt_intCast 1003 (by norm_num) (by norm_num)]
    norm_num [goMathRound, round_eq]
  · norm_num [specPongTimeDiff, round_eq]
